import Mathlib

/-!
Shallow embedding of the data-characterization pipeline of `src/app.py`
(the functions `allowed_file`, `load_data_file`, `get_data_characteristics`
and `create_visualizations`), together with theorems settling the frozen
claims about it.

Conventions of the embedding:
* a pandas DataFrame is a `Table`: a row count plus an ordered list of
  named, dtype-tagged columns (`Column`), each a list of `Cell`s;
* a float `NaN` and a Python `None` inside a column are both `Cell.missing`
  (this is exactly what `df.isnull()` treats as missing);
* numbers are `ℚ` (the source computes in IEEE doubles; every claim under
  test is about exact algebraic identities or about which value is
  reported, so exact rationals are the faithful idealization);
* a reported statistic is a `PyVal`: `null` (Python `None`), `nan`
  (a float NaN reaching the output), or `num q`;
* the reported standard deviation and skewness are irrational square roots
  of rational data, so the embedding carries an injective rational encoding:
  `std_sq` is the square of the reported std, and `skew_data` is the sign
  times the square of the reported skewness.  Two reported stds
  (resp. skewnesses) are equal iff their encodings are, because
  `Real.sqrt` is injective on nonnegative reals.
-/

/-- The pandas dtypes that occur in the claims: numeric dtypes
(`int64`, `float64`), the dtypes selected as categorical (`object`,
`category`), and dtypes selected by neither filter (`boolean`, `datetime`). -/
inductive Dtype where
  | int64
  | float64
  | object
  | category
  | boolean
  | datetime
deriving DecidableEq

/-- One value of a column: a number, a string, a boolean payload,
a datetime payload (opaque here), or a missing marker (NaN / None). -/
inductive Cell where
  | num (q : ℚ)
  | str (s : String)
  | boolv (b : Bool)
  | time (t : ℤ)
  | missing
deriving DecidableEq

/-- A named, dtype-tagged column of cells. -/
structure Column where
  name : String
  dtype : Dtype
  cells : List Cell
deriving DecidableEq

/-- A DataFrame: its row count (`len(df)`) and its ordered columns. -/
structure Table where
  nrows : ℕ
  cols : List Column
deriving DecidableEq

/-- Well-formedness of a table: every column has exactly `nrows` cells. -/
def Table.WellFormed (t : Table) : Prop :=
  ∀ c ∈ t.cols, c.cells.length = t.nrows

/-- A value as it appears in the extracted characteristics: Python `None`,
a float NaN, or an actual number. -/
inductive PyVal where
  | null
  | nan
  | num (q : ℚ)
deriving DecidableEq

/-- Embeds `pd.isnull` on one cell. -/
def isMissing : Cell → Bool
  | Cell.missing => true
  | _ => false

/-- Embeds `df[col].isnull().sum()`: the number of missing cells. -/
def missingCount (c : Column) : ℕ :=
  (c.cells.filter isMissing).length

/-- The numeric values of a column's non-missing cells, in order
(what the numeric aggregations of pandas actually aggregate over,
and what `df[col].dropna()` yields on a numeric column). -/
def nonMissingNums (c : Column) : List ℚ :=
  c.cells.filterMap (fun x => match x with | Cell.num q => some q | _ => none)

/-- The string values of a column's non-missing cells, in order. -/
def strVals (c : Column) : List String :=
  c.cells.filterMap (fun x => match x with | Cell.str s => some s | _ => none)

/-- Round to the nearest integer, ties to even — the rounding used by
numpy/pandas `.round`. -/
def roundHalfEven (x : ℚ) : ℤ :=
  let f : ℤ := ⌊x⌋
  let r : ℚ := x - (f : ℚ)
  if r < 1/2 then f
  else if 1/2 < r then f + 1
  else if 2 ∣ f then f else f + 1

/-- Embeds `.round(2)`: round to two decimal places, ties to even. -/
def round2 (x : ℚ) : ℚ :=
  ((roundHalfEven (x * 100) : ℤ) : ℚ) / 100

/-- Embeds `(df.isnull().sum() / len(df) * 100).round(2)` for one column.
When `len(df) = 0` the float quotient `0 / 0` is NaN (numpy does not raise),
so the reported percentage is `nan`; otherwise it is the rounded rational. -/
def missingPercentage (nrows : ℕ) (c : Column) : PyVal :=
  if nrows = 0 then PyVal.nan
  else PyVal.num (round2 ((missingCount c : ℚ) / (nrows : ℚ) * 100))

/-- Insert into an ascending-sorted list, keeping it sorted. -/
def insertAsc (x : ℚ) : List ℚ → List ℚ
  | [] => [x]
  | y :: ys => if x ≤ y then x :: y :: ys else y :: insertAsc x ys

/-- Ascending insertion sort on rationals (used for median and quantiles). -/
def sortAsc (l : List ℚ) : List ℚ :=
  l.foldr insertAsc []

/-- Arithmetic mean of a list (callers guard against the empty list). -/
def meanOf (l : List ℚ) : ℚ :=
  l.sum / (l.length : ℚ)

/-- Central moment of order `k` of a list. -/
def centralMoment (k : ℕ) (l : List ℚ) : ℚ :=
  ((l.map (fun x => (x - meanOf l) ^ k)).sum) / (l.length : ℚ)

/-- Embeds `Series.median`: the average of the two middle elements of the
sorted data (they coincide for odd length). -/
def medianOf (l : List ℚ) : ℚ :=
  let s := sortAsc l
  let n := s.length
  (s.getD ((n - 1) / 2) 0 + s.getD (n / 2) 0) / 2

/-- Embeds `Series.quantile(p)` with the default linear-interpolation rule:
at fractional position `p * (n - 1)` in the sorted data. -/
def quantileLin (p : ℚ) (l : List ℚ) : ℚ :=
  let s := sortAsc l
  let n := s.length
  let h : ℚ := p * ((n : ℚ) - 1)
  let lo : ℤ := ⌊h⌋
  let a := s.getD lo.toNat 0
  let b := s.getD (lo.toNat + 1) a
  a + (h - (lo : ℚ)) * (b - a)

/-- Embeds the square of `Series.std()` (sample variance, `ddof = 1`):
NaN for fewer than two observations, else `Σ (x - x̄)² / (n - 1)`. -/
def stdSqOf (l : List ℚ) : PyVal :=
  if l.length < 2 then PyVal.nan
  else PyVal.num (((l.map (fun x => (x - meanOf l) ^ 2)).sum) / ((l.length : ℚ) - 1))

/-- Embeds the signed square of `Series.skew()` (the adjusted Fisher-Pearson
estimator `G1 = √(n(n-1))/(n-2) · m3/m2^(3/2)`): NaN for fewer than three
observations, `0` for zero variance, else `sgn(m3) · G1²` as a rational. -/
def skewDataOf (l : List ℚ) : PyVal :=
  let n : ℚ := l.length
  if l.length < 3 then PyVal.nan
  else if centralMoment 2 l = 0 then PyVal.num 0
  else PyVal.num ((n * (n - 1) / (n - 2) ^ 2) *
    (centralMoment 3 l * |centralMoment 3 l|) / (centralMoment 2 l) ^ 3)

/-- Embeds `Series.kurtosis()` (the adjusted excess-kurtosis estimator
`G2 = (n-1)/((n-2)(n-3)) · ((n+1)·m4/m2² − 3(n−1))`): NaN for fewer than
four observations, `0` for zero variance, else `G2`. -/
def kurtosisOf (l : List ℚ) : PyVal :=
  let n : ℚ := l.length
  if l.length < 4 then PyVal.nan
  else if centralMoment 2 l = 0 then PyVal.num 0
  else PyVal.num (((n - 1) / ((n - 2) * (n - 3))) *
    ((n + 1) * centralMoment 4 l / (centralMoment 2 l) ^ 2 - 3 * (n - 1)))

/-- The record of numeric statistics reported for one numeric column
(`std_sq` and `skew_data` are the rational encodings described above). -/
structure NumStats where
  mean : PyVal
  median : PyVal
  std_sq : PyVal
  min : PyVal
  max : PyVal
  q25 : PyVal
  q75 : PyVal
  skew_data : PyVal
  kurtosis : PyVal
deriving DecidableEq

/-- All nine numeric statistics reported as Python `None`. -/
def nullNumStats : NumStats :=
  ⟨PyVal.null, PyVal.null, PyVal.null, PyVal.null, PyVal.null,
   PyVal.null, PyVal.null, PyVal.null, PyVal.null⟩

/-- Minimum of a list of rationals (callers guard against the empty list). -/
def minOf (l : List ℚ) : ℚ :=
  match l with
  | [] => 0
  | x :: xs => xs.foldl min x

/-- Maximum of a list of rationals (callers guard against the empty list). -/
def maxOf (l : List ℚ) : ℚ :=
  match l with
  | [] => 0
  | x :: xs => xs.foldl max x

/-- Embeds the per-column body of the numeric loop of
`get_data_characteristics`: every statistic is `None` when
`df[col].isna().all()`, else the pandas aggregate over the non-missing
values. -/
def numericalStats (c : Column) : NumStats :=
  if c.cells.all isMissing then nullNumStats
  else
    let l := nonMissingNums c
    { mean := if l.length = 0 then PyVal.nan else PyVal.num (meanOf l)
      median := if l.length = 0 then PyVal.nan else PyVal.num (medianOf l)
      std_sq := stdSqOf l
      min := if l.length = 0 then PyVal.nan else PyVal.num (minOf l)
      max := if l.length = 0 then PyVal.nan else PyVal.num (maxOf l)
      q25 := if l.length = 0 then PyVal.nan else PyVal.num (quantileLin (1/4) l)
      q75 := if l.length = 0 then PyVal.nan else PyVal.num (quantileLin (3/4) l)
      skew_data := skewDataOf l
      kurtosis := kurtosisOf l }

/-- The distinct values of a list in order of first encounter — the key
order of a pandas value-count hashtable, which records each value the
first time it is seen. -/
def distinctInOrder (l : List String) : List String :=
  l.foldl (fun acc s => if s ∈ acc then acc else acc ++ [s]) []

/-- Embeds the unsorted result of `df[col].value_counts()` on a
categorical column: each distinct non-missing value, in first-encounter
order, paired with its number of occurrences (missing cells are dropped,
which is the pandas default `dropna=True`). -/
def rawCounts (c : Column) : List (String × ℕ) :=
  (distinctInOrder (strVals c)).map (fun s => (s, (strVals c).count s))

/-- Stable insertion into a count-descending list: the new entry goes
after every entry with a greater-or-equal count. -/
def insertDesc (x : String × ℕ) : List (String × ℕ) → List (String × ℕ)
  | [] => [x]
  | y :: ys => if y.2 < x.2 then x :: y :: ys else y :: insertDesc x ys

/-- Stable descending sort by count (the `sort_values(ascending=False)`
step of `value_counts`; stability keeps ties in first-encounter order). -/
def sortDesc (l : List (String × ℕ)) : List (String × ℕ) :=
  l.foldl (fun acc x => insertDesc x acc) []

/-- Embeds `df[col].value_counts()`: occurrence counts sorted by
descending count, ties in first-encounter order. -/
def valueCounts (c : Column) : List (String × ℕ) :=
  sortDesc (rawCounts c)

/-- The record of statistics reported for one categorical column. -/
structure CatStats where
  unique_values : ℕ
  most_frequent : Option String
  most_frequent_count : Option ℕ
  value_counts_top : List (String × ℕ)
deriving DecidableEq

/-- Embeds the per-column body of the categorical loop of
`get_data_characteristics`: `nunique`, the head of `value_counts` when it
is nonempty (else `None`), and `value_counts.head(10)`. -/
def categoricalStats (c : Column) : CatStats :=
  { unique_values := (distinctInOrder (strVals c)).length
    most_frequent := (valueCounts c).head?.map Prod.fst
    most_frequent_count := (valueCounts c).head?.map Prod.snd
    value_counts_top := (valueCounts c).take 10 }

/-- Whether a dtype is selected by `select_dtypes(include=[np.number])`. -/
def isNumericDtype : Dtype → Bool
  | Dtype.int64 => true
  | Dtype.float64 => true
  | _ => false

/-- Whether a dtype is selected by
`select_dtypes(include=["object", "category"])`. -/
def isCategoricalDtype : Dtype → Bool
  | Dtype.object => true
  | Dtype.category => true
  | _ => false

/-- The numeric columns of a table, in original column order. -/
def numericalColumns (t : Table) : List Column :=
  t.cols.filter (fun c => isNumericDtype c.dtype)

/-- The categorical columns of a table, in original column order. -/
def categoricalColumns (t : Table) : List Column :=
  t.cols.filter (fun c => isCategoricalDtype c.dtype)

/-- The string pandas prints for a dtype (`df.dtypes.apply(str)`). -/
def dtypeStr : Dtype → String
  | Dtype.int64 => "int64"
  | Dtype.float64 => "float64"
  | Dtype.object => "object"
  | Dtype.category => "category"
  | Dtype.boolean => "bool"
  | Dtype.datetime => "datetime64[ns]"

/-- The `basic_info` block of the characteristics.  The `memory_usage`
entry of the source (a pandas-internal byte count, not touched by any
claim) is not modelled. -/
structure BasicInfo where
  rows : ℕ
  columns : ℕ
  column_names : List String
  data_types : List (String × String)
deriving DecidableEq

/-- The `missing_data` block of the characteristics. -/
structure MissingData where
  missing_counts : List (String × ℕ)
  missing_percentages : List (String × PyVal)
deriving DecidableEq

/-- The full result of `get_data_characteristics` (Python dicts keyed by
column name become association lists in column order, which is the
insertion order of the source's dicts). -/
structure Characteristics where
  basic_info : BasicInfo
  missing_data : MissingData
  numerical_stats : List (String × NumStats)
  categorical_stats : List (String × CatStats)
deriving DecidableEq

/-- Embeds `get_data_characteristics(df)`. -/
def get_data_characteristics (t : Table) : Characteristics :=
  { basic_info :=
      { rows := t.nrows
        columns := t.cols.length
        column_names := t.cols.map (fun c => c.name)
        data_types := t.cols.map (fun c => (c.name, dtypeStr c.dtype)) }
    missing_data :=
      { missing_counts := t.cols.map (fun c => (c.name, missingCount c))
        missing_percentages :=
          t.cols.map (fun c => (c.name, missingPercentage t.nrows c)) }
    numerical_stats :=
      (numericalColumns t).map (fun c => (c.name, numericalStats c))
    categorical_stats :=
      (categoricalColumns t).map (fun c => (c.name, categoricalStats c)) }

/-- The row of cells at index `i` restricted to the columns `sel`
(cells past the end of a column read as `missing`; a well-formed table
never reaches that default). -/
def scatterRow (sel : List Column) (i : ℕ) : List Cell :=
  sel.map (fun c => c.cells.getD i Cell.missing)

/-- The row indices kept by `df[sel].dropna()`: those whose cells in the
selected columns are all non-missing. -/
def keptRowIdx (nrows : ℕ) (sel : List Column) : List ℕ :=
  (List.range nrows).filter (fun i => (scatterRow sel i).all (fun x => !isMissing x))

/-- The chart-spec mapping produced by `create_visualizations`, one
optional slot per chart.  Each slot carries the data that the source puts
into the corresponding plotly figure; layout strings (titles, axis labels)
are fixed text and are not modelled. -/
structure Visualizations where
  summary_stats : Option (List (String × NumStats))
  distributions : Option (List (String × List ℚ))
  correlation : Option (List String)
  boxplots : Option (List (String × List ℚ))
  categorical : Option (String × List (String × ℕ))
  scatter_matrix : Option (List String × List (List Cell))
deriving DecidableEq

/-- Embeds `create_visualizations(df, characteristics)`.  The second
Python argument is only read at `characteristics["numerical_stats"][col]`,
which for the in-app call equals `numericalStats` of the same column, so
the embedding recomputes it from the table.
* `summary_stats`: first 5 numeric columns with their reported stats;
* `distributions`: first 3 numeric columns with their `dropna()` values;
* `correlation`: present when ≥ 2 numeric columns; the heatmap axes are
  all numeric column names (the Pearson matrix entries, untouched by any
  claim, are not modelled);
* `boxplots`: first 4 numeric columns with their `dropna()` values;
* `categorical`: first categorical column with `value_counts().head(10)`;
* `scatter_matrix`: first 3 numeric columns and the rows of
  `df[sel].dropna()`. -/
def create_visualizations (t : Table) : Visualizations :=
  let nc := numericalColumns t
  let cc := categoricalColumns t
  { summary_stats :=
      if 0 < nc.length then
        some ((nc.take 5).map (fun c => (c.name, numericalStats c)))
      else none
    distributions :=
      if 0 < nc.length then
        some ((nc.take 3).map (fun c => (c.name, nonMissingNums c)))
      else none
    correlation :=
      if 1 < nc.length then some (nc.map (fun c => c.name)) else none
    boxplots :=
      if 0 < nc.length then
        some ((nc.take 4).map (fun c => (c.name, nonMissingNums c)))
      else none
    categorical :=
      match cc with
      | [] => none
      | c :: _ => some (c.name, (valueCounts c).take 10)
    scatter_matrix :=
      if 2 ≤ nc.length then
        let sel := nc.take 3
        some (sel.map (fun c => c.name),
              (keptRowIdx t.nrows sel).map (scatterRow sel))
      else none }

/-- Lower-case a character list (`str.lower()` on the ASCII extensions
at issue). -/
def lowerChars (l : List Char) : List Char :=
  l.map Char.toLower

/-- The substring after the last dot: `filename.rsplit(".", 1)[1]` for a
filename that contains a dot. -/
def afterLastDot (l : List Char) : List Char :=
  (l.reverse.takeWhile (fun c => c ≠ '.')).reverse

/-- The allowed upload extensions (`ALLOWED_EXTENSIONS` in the source). -/
def ALLOWED_EXTENSIONS : List (List Char) :=
  ["csv", "xlsx", "xls", "json", "txt"].map String.data

/-- Embeds `allowed_file(filename)`:
`"." in filename and filename.rsplit(".", 1)[1].lower() in ALLOWED_EXTENSIONS`. -/
def allowed_file (filename : List Char) : Bool :=
  filename.contains '.' && ALLOWED_EXTENSIONS.contains (lowerChars (afterLastDot filename))

/-- The parsing back end of the File Loader: the outcomes of the pandas
readers on each path (`pd.read_csv`, `pd.read_excel`, `pd.read_json`, and
`pd.read_csv` with tab and with space separators).  The readers are
library code outside this repository, so the loader is verified for every
possible behaviour of them. -/
structure ParseEnv where
  readCsv : List Char → Except String Table
  readExcel : List Char → Except String Table
  readJson : List Char → Except String Table
  readCsvTab : List Char → Except String Table
  readCsvSpace : List Char → Except String Table

/-- The three ways `load_data_file` can come back to its caller: a parsed
table, a raised `ValueError` with its message, or the silent `None` that
falls out of the dispatch when no branch matches. -/
inductive LoadResult where
  | table (t : Table)
  | err (msg : String)
  | noneReturn
deriving DecidableEq

/-- The lower-cased extension `filepath.rsplit(".", 1)[1].lower()`, when
the path contains a dot; `none` when the index access would raise
`IndexError`. -/
def pyExtOf (path : List Char) : Option (List Char) :=
  if path.contains '.' then some (lowerChars (afterLastDot path)) else none

/-- Wraps a parser outcome the way the outer `try/except` of
`load_data_file` does: a parse failure becomes
`ValueError("Error loading file: " + cause)`. -/
def wrapLoad (r : Except String Table) : LoadResult :=
  match r with
  | Except.ok t => LoadResult.table t
  | Except.error m => LoadResult.err ("Error loading file: " ++ m)

/-- Embeds `load_data_file(filepath)`.  A dotless path raises `IndexError`
inside the `try`, which the bare `except Exception` converts to the
`ValueError`; a recognized extension dispatches to its parser; `.txt`
tries the tab separator and falls back to the space separator; any other
extension matches no branch, so the function returns `None`. -/
def load_data_file (env : ParseEnv) (path : List Char) : LoadResult :=
  match pyExtOf path with
  | none => LoadResult.err ("Error loading file: list index out of range")
  | some ext =>
    if ext = "csv".data then wrapLoad (env.readCsv path)
    else if ext = "xlsx".data ∨ ext = "xls".data then wrapLoad (env.readExcel path)
    else if ext = "json".data then wrapLoad (env.readJson path)
    else if ext = "txt".data then
      match env.readCsvTab path with
      | Except.ok t => LoadResult.table t
      | Except.error _ => wrapLoad (env.readCsvSpace path)
    else LoadResult.noneReturn

/-! Theorems.  Each claim of the specification gets one theorem below,
preceded by helper lemmas where needed. -/

theorem takeWhile_append_of {p : Char → Bool} (xs : List Char) (y : Char)
    (ys : List Char) (hxs : ∀ x ∈ xs, p x = true) (hy : p y = false) :
    (xs ++ y :: ys).takeWhile p = xs := by
  induction xs with
  | nil => simp [List.takeWhile, hy]
  | cons a as ih =>
    have ha : p a = true := hxs a (List.mem_cons_self a as)
    simp only [List.cons_append, List.takeWhile_cons, ha, if_true]
    rw [ih (fun x hx => hxs x (List.mem_cons_of_mem a hx))]

theorem afterLastDot_of_decomp (f a b : List Char)
    (hf : f = a ++ '.' :: b) (hb : '.' ∉ b) : afterLastDot f = b := by
  subst hf
  unfold afterLastDot
  have : (a ++ '.' :: b).reverse = b.reverse ++ '.' :: a.reverse := by
    simp
  rw [this, takeWhile_append_of]
  · simp
  · intro x hx
    simp only [decide_eq_true_eq]
    intro hxe
    exact hb (by simpa [hxe] using List.mem_reverse.mp hx)
  · simp

theorem exists_decomp_of_mem_dot (f : List Char) (h : '.' ∈ f) :
    ∃ a, f = a ++ '.' :: afterLastDot f ∧ '.' ∉ afterLastDot f := by
  have key : ∀ r : List Char, '.' ∈ r →
      ∃ rest, r = r.takeWhile (fun c => c ≠ '.') ++ '.' :: rest ∧
        ∀ x ∈ r.takeWhile (fun c => c ≠ '.'), x ≠ '.' := by
    intro r hr
    induction r with
    | nil => cases hr
    | cons x xs ih =>
      by_cases hx : x = '.'
      · subst hx
        refine ⟨xs, ?_, ?_⟩
        · simp [List.takeWhile_cons]
        · simp [List.takeWhile_cons]
      · have hx' : (fun c => decide (c ≠ '.')) x = true := by
          simp [hx]
        have hmem : '.' ∈ xs := by
          rcases List.mem_cons.mp hr with h1 | h1
          · exact absurd h1.symm hx
          · exact h1
        obtain ⟨rest, hre, hall⟩ := ih hmem
        refine ⟨rest, ?_, ?_⟩
        · simp only [List.takeWhile_cons, hx', if_true, List.cons_append]
          rw [← hre]
        · intro z hz
          simp only [List.takeWhile_cons, hx', if_true] at hz
          rcases List.mem_cons.mp hz with h1 | h1
          · subst h1; exact hx
          · exact hall z h1
  obtain ⟨rest, hre, hall⟩ := key f.reverse (List.mem_reverse.mpr h)
  refine ⟨rest.reverse, ?_, ?_⟩
  · have := congrArg List.reverse hre
    simpa [afterLastDot] using this
  · unfold afterLastDot
    intro hc
    exact hall '.' (List.mem_reverse.mp hc) rfl

/-- Claim C10: `allowed_file` accepts a filename iff the name contains a
dot and the substring after the last dot, lower-cased, is one of
`csv`, `xlsx`, `xls`, `json`, `txt`; in particular matching is
case-insensitive and a dotless name is always rejected. -/
theorem allowed_file_iff_ext (f : List Char) :
    allowed_file f = true ↔
      ∃ a b, f = a ++ '.' :: b ∧ '.' ∉ b ∧ lowerChars b ∈ ALLOWED_EXTENSIONS := by
  unfold allowed_file
  constructor
  · intro h
    simp only [Bool.and_eq_true] at h
    obtain ⟨h1, h2⟩ := h
    have hdot : '.' ∈ f := by
      simpa [List.contains, List.elem_iff] using h1
    obtain ⟨a, hdec, hnot⟩ := exists_decomp_of_mem_dot f hdot
    refine ⟨a, afterLastDot f, hdec, hnot, ?_⟩
    simpa [List.contains, List.elem_iff] using h2
  · rintro ⟨a, b, hdec, hnot, hmem⟩
    have hdot : '.' ∈ f := by
      subst hdec; simp
    have hald : afterLastDot f = b := afterLastDot_of_decomp f a b hdec hnot
    simp only [Bool.and_eq_true]
    refine ⟨?_, ?_⟩
    · simpa [List.contains, List.elem_iff] using hdot
    · rw [hald]
      simpa [List.contains, List.elem_iff] using hmem

/-- A concrete parsing back end on which every reader fails (used to
instantiate loader theorems at a closed input). -/
def envFail : ParseEnv :=
  ⟨fun _ => Except.error "parse error", fun _ => Except.error "parse error",
   fun _ => Except.error "parse error", fun _ => Except.error "parse error",
   fun _ => Except.error "parse error"⟩

/-- Counterexample to claim C2: on the path `file.bmp` — an extension
outside csv/xlsx/xls/json/txt — `load_data_file` neither returns a table
nor raises the `DataLoadError` `ValueError`; it silently returns `None`
(no branch of the dispatch matches and no exception is raised inside the
`try`). -/
theorem load_data_file_bmp_returns_none :
    load_data_file envFail ("file.bmp".data) = LoadResult.noneReturn ∧
    (∀ t, load_data_file envFail ("file.bmp".data) ≠ LoadResult.table t) ∧
    (∀ m, load_data_file envFail ("file.bmp".data) ≠ LoadResult.err m) := by
  have h : load_data_file envFail ("file.bmp".data) = LoadResult.noneReturn := by
    decide
  refine ⟨h, ?_, ?_⟩
  · intro t ht
    rw [h] at ht
    cases ht
  · intro m hm
    rw [h] at hm
    cases hm

/-- Claim C2, amended: for every parsing back end and every path,
`load_data_file` (a) converts the `IndexError` of a dotless path into the
`ValueError`; (b) for a recognized extension it returns either a complete
parsed table or the `ValueError`, and when the dispatched parser fails
the raised error carries that parser's underlying cause message — for
`.txt` the tab-separated attempt's failure is swallowed and the carried
cause is the space-separated attempt's message; (c) for any other
extension it silently returns `None` instead of failing. -/
theorem load_data_file_spec (env : ParseEnv) (path : List Char) :
    (pyExtOf path = none →
      load_data_file env path =
        LoadResult.err ("Error loading file: list index out of range")) ∧
    (∀ ext, pyExtOf path = some ext →
      ((ext = "csv".data ∨ ext = "xlsx".data ∨ ext = "xls".data ∨
        ext = "json".data ∨ ext = "txt".data) →
        (∃ t, load_data_file env path = LoadResult.table t) ∨
        (∃ m, load_data_file env path =
          LoadResult.err ("Error loading file: " ++ m))) ∧
      (ext = "csv".data →
        (∀ t, env.readCsv path = Except.ok t →
          load_data_file env path = LoadResult.table t) ∧
        (∀ m, env.readCsv path = Except.error m →
          load_data_file env path =
            LoadResult.err ("Error loading file: " ++ m))) ∧
      ((ext = "xlsx".data ∨ ext = "xls".data) →
        (∀ t, env.readExcel path = Except.ok t →
          load_data_file env path = LoadResult.table t) ∧
        (∀ m, env.readExcel path = Except.error m →
          load_data_file env path =
            LoadResult.err ("Error loading file: " ++ m))) ∧
      (ext = "json".data →
        (∀ t, env.readJson path = Except.ok t →
          load_data_file env path = LoadResult.table t) ∧
        (∀ m, env.readJson path = Except.error m →
          load_data_file env path =
            LoadResult.err ("Error loading file: " ++ m))) ∧
      (ext = "txt".data →
        (∀ t, env.readCsvTab path = Except.ok t →
          load_data_file env path = LoadResult.table t) ∧
        (∀ e t, env.readCsvTab path = Except.error e →
          env.readCsvSpace path = Except.ok t →
          load_data_file env path = LoadResult.table t) ∧
        (∀ e m, env.readCsvTab path = Except.error e →
          env.readCsvSpace path = Except.error m →
          load_data_file env path =
            LoadResult.err ("Error loading file: " ++ m))) ∧
      (¬(ext = "csv".data ∨ ext = "xlsx".data ∨ ext = "xls".data ∨
        ext = "json".data ∨ ext = "txt".data) →
        load_data_file env path = LoadResult.noneReturn)) := by
  constructor
  · intro h
    unfold load_data_file
    rw [h]
  · intro ext hext
    have hload : load_data_file env path =
        (if ext = "csv".data then wrapLoad (env.readCsv path)
         else if ext = "xlsx".data ∨ ext = "xls".data then wrapLoad (env.readExcel path)
         else if ext = "json".data then wrapLoad (env.readJson path)
         else if ext = "txt".data then
           match env.readCsvTab path with
           | Except.ok t => LoadResult.table t
           | Except.error _ => wrapLoad (env.readCsvSpace path)
         else LoadResult.noneReturn) := by
      unfold load_data_file
      rw [hext]
    have hwrap : ∀ r : Except String Table,
        (∃ t, wrapLoad r = LoadResult.table t) ∨
        (∃ m, wrapLoad r = LoadResult.err ("Error loading file: " ++ m)) := by
      intro r
      cases r with
      | ok t => exact Or.inl ⟨t, rfl⟩
      | error m => exact Or.inr ⟨m, rfl⟩
    refine ⟨?_, ?_, ?_, ?_, ?_, ?_⟩
    · intro hrec
      rw [hload]
      rcases hrec with h1 | h1 | h1 | h1 | h1
      · rw [if_pos h1]; exact hwrap _
      · rw [if_neg (by simp [h1]), if_pos (Or.inl h1)]; exact hwrap _
      · rw [if_neg (by simp [h1]), if_pos (Or.inr h1)]; exact hwrap _
      · rw [if_neg (by simp [h1]), if_neg (by simp [h1]), if_pos h1]
        exact hwrap _
      · rw [if_neg (by simp [h1]), if_neg (by simp [h1]), if_neg (by simp [h1]),
          if_pos h1]
        cases env.readCsvTab path with
        | ok t => exact Or.inl ⟨t, rfl⟩
        | error m => exact hwrap _
    · intro h1
      constructor
      · intro t hok
        rw [hload, if_pos h1, hok]
        rfl
      · intro m herr
        rw [hload, if_pos h1, herr]
        rfl
    · intro h1
      have hnc : ¬ext = "csv".data := by
        rcases h1 with h1 | h1 <;> simp [h1]
      constructor
      · intro t hok
        rw [hload, if_neg hnc, if_pos h1, hok]
        rfl
      · intro m herr
        rw [hload, if_neg hnc, if_pos h1, herr]
        rfl
    · intro h1
      constructor
      · intro t hok
        rw [hload, if_neg (by simp [h1]), if_neg (by simp [h1]), if_pos h1, hok]
        rfl
      · intro m herr
        rw [hload, if_neg (by simp [h1]), if_neg (by simp [h1]), if_pos h1, herr]
        rfl
    · intro h1
      refine ⟨?_, ?_, ?_⟩
      · intro t hok
        rw [hload, if_neg (by simp [h1]), if_neg (by simp [h1]),
          if_neg (by simp [h1]), if_pos h1, hok]
      · intro e t htab hok
        rw [hload, if_neg (by simp [h1]), if_neg (by simp [h1]),
          if_neg (by simp [h1]), if_pos h1, htab, hok]
        rfl
      · intro e m htab herr
        rw [hload, if_neg (by simp [h1]), if_neg (by simp [h1]),
          if_neg (by simp [h1]), if_pos h1, htab, herr]
        rfl
    · intro hrec
      push_neg at hrec
      obtain ⟨n1, n2, n3, n4, n5⟩ := hrec
      rw [hload, if_neg n1, if_neg (by simp [n2, n3]), if_neg n4, if_neg n5]

/-- Witness for `load_data_file_spec`: at the concrete back end `envFail`
and the path `a.csv`, the csv parser fails with cause `parse error` and
the loader raises the `ValueError` carrying exactly that cause. -/
theorem load_data_file_spec_w :
    pyExtOf ("a.csv".data) = some ("csv".data) ∧
    envFail.readCsv ("a.csv".data) = Except.error "parse error" ∧
    load_data_file envFail ("a.csv".data) =
      LoadResult.err ("Error loading file: " ++ "parse error") := by
  have hext : pyExtOf ("a.csv".data) = some ("csv".data) := by decide
  have herr : envFail.readCsv ("a.csv".data) = Except.error "parse error" := rfl
  exact ⟨hext, herr,
    (((load_data_file_spec envFail ("a.csv".data)).2 ("csv".data) hext).2.1
      rfl).2 "parse error" herr⟩

/-- A table with one float column and zero rows. -/
def zeroRowTable : Table :=
  ⟨0, [⟨"a", Dtype.float64, []⟩]⟩

/-- Counterexample to claim C1: on a zero-row table the computation of
`(df.isnull().sum() / len(df) * 100).round(2)` divides `0` by `0`, which
in float arithmetic yields NaN — not the `0.0` the claim specifies (it
indeed does not raise). -/
theorem missing_percentage_zero_rows_nan :
    (get_data_characteristics zeroRowTable).missing_data.missing_percentages =
      [("a", PyVal.nan)] ∧ PyVal.nan ≠ PyVal.num 0 := by
  constructor
  · rfl
  · intro h
    cases h

/-- Claim C1, amended: every column of every table receives a
missing-percentage entry; for a table with at least one row it equals
`round(missing_count / row_count * 100, 2)`, and for a zero-row table the
computation does not raise and reports NaN (not `0.0`) for every column. -/
theorem missing_percentage_formula (t : Table) (c : Column) (hc : c ∈ t.cols) :
    (c.name, missingPercentage t.nrows c) ∈
      (get_data_characteristics t).missing_data.missing_percentages ∧
    (0 < t.nrows → missingPercentage t.nrows c =
      PyVal.num (round2 ((missingCount c : ℚ) / (t.nrows : ℚ) * 100))) ∧
    (t.nrows = 0 → missingPercentage t.nrows c = PyVal.nan) := by
  refine ⟨?_, ?_, ?_⟩
  · simp only [get_data_characteristics]
    exact List.mem_map.mpr ⟨c, hc, rfl⟩
  · intro hpos
    unfold missingPercentage
    rw [if_neg (Nat.pos_iff_ne_zero.mp hpos)]
  · intro hz
    unfold missingPercentage
    rw [if_pos hz]

/-- A two-row table with one float column holding one value and one
missing cell. -/
def halfMissingTable : Table :=
  ⟨2, [⟨"a", Dtype.float64, [Cell.num 1, Cell.missing]⟩]⟩

/-- Witness for `missing_percentage_formula` at `halfMissingTable`. -/
theorem missing_percentage_formula_w :
    (⟨"a", Dtype.float64, [Cell.num 1, Cell.missing]⟩ : Column) ∈
      halfMissingTable.cols ∧
    0 < halfMissingTable.nrows ∧
    missingPercentage halfMissingTable.nrows
        ⟨"a", Dtype.float64, [Cell.num 1, Cell.missing]⟩ =
      PyVal.num (round2
        ((missingCount ⟨"a", Dtype.float64, [Cell.num 1, Cell.missing]⟩ : ℚ) /
          (halfMissingTable.nrows : ℚ) * 100)) := by
  have hc : (⟨"a", Dtype.float64, [Cell.num 1, Cell.missing]⟩ : Column) ∈
      halfMissingTable.cols := List.mem_cons_self _ _
  have hpos : 0 < halfMissingTable.nrows := by decide
  exact ⟨hc, hpos,
    (missing_percentage_formula halfMissingTable _ hc).2.1 hpos⟩

/-- Claim C3: a numeric column whose cells are all missing reports every
one of its nine statistics as `None`, and it still gets an entry in the
numeric-stats map (the extraction does not raise: the guard
`df[col].isna().all()` short-circuits every aggregate). -/
theorem all_missing_numeric_stats_null (t : Table) (c : Column)
    (hc : c ∈ t.cols) (hnum : isNumericDtype c.dtype = true)
    (hall : c.cells.all isMissing = true) :
    (c.name, numericalStats c) ∈ (get_data_characteristics t).numerical_stats ∧
    numericalStats c = nullNumStats := by
  constructor
  · simp only [get_data_characteristics]
    refine List.mem_map.mpr ⟨c, ?_, rfl⟩
    exact List.mem_filter.mpr ⟨hc, hnum⟩
  · unfold numericalStats
    rw [if_pos hall]

/-- A two-row table whose single float column is entirely missing. -/
def allMissingNumTable : Table :=
  ⟨2, [⟨"x", Dtype.float64, [Cell.missing, Cell.missing]⟩]⟩

/-- Witness for `all_missing_numeric_stats_null` at `allMissingNumTable`. -/
theorem all_missing_numeric_stats_null_w :
    (⟨"x", Dtype.float64, [Cell.missing, Cell.missing]⟩ : Column) ∈
      allMissingNumTable.cols ∧
    numericalStats ⟨"x", Dtype.float64, [Cell.missing, Cell.missing]⟩ =
      nullNumStats := by
  have hc : (⟨"x", Dtype.float64, [Cell.missing, Cell.missing]⟩ : Column) ∈
      allMissingNumTable.cols := List.mem_cons_self _ _
  exact ⟨hc,
    (all_missing_numeric_stats_null allMissingNumTable _ hc (by decide)
      (by decide)).2⟩

/-- Modelled from the claim (not the source): the population variance of
a list of values, `Σ (x - x̄)² / n`.  The claimed population standard
deviation is its square root, so two standard deviations agree iff the
variances do. -/
def popVariance (l : List ℚ) : ℚ :=
  centralMoment 2 l

/-- Modelled from the claim (not the source): the plain excess kurtosis,
the fourth standardized moment minus 3, `m4 / m2² − 3`. -/
def specExcessKurtosis (l : List ℚ) : ℚ :=
  centralMoment 4 l / (centralMoment 2 l) ^ 2 - 3

/-- A float column with values 0 and 2. -/
def colStd : Column :=
  ⟨"x", Dtype.float64, [Cell.num 0, Cell.num 2]⟩

/-- A float column with values 0, 0, 0, 1. -/
def colKurt : Column :=
  ⟨"y", Dtype.float64, [Cell.num 0, Cell.num 0, Cell.num 0, Cell.num 1]⟩

/-- Counterexample to claim C4.  For the column `[0, 2]` the reported
std is `√2` (pandas `Series.std()` uses the sample estimator, `ddof = 1`)
while the population standard deviation is `√1 = 1`: the squares `2` and
`1` differ, so the standard deviations differ.  For the column
`[0, 0, 0, 1]` the reported kurtosis (pandas' bias-adjusted estimator
`G2`) is `4`, while the fourth standardized moment minus 3 is `−2/3`. -/
theorem std_kurtosis_not_population :
    (numericalStats colStd).std_sq = PyVal.num 2 ∧
    popVariance (nonMissingNums colStd) = 1 ∧
    (2 : ℚ) ≠ 1 ∧
    (numericalStats colKurt).kurtosis = PyVal.num 4 ∧
    specExcessKurtosis (nonMissingNums colKurt) = -(2/3) ∧
    (4 : ℚ) ≠ -(2/3) := by
  have hs : nonMissingNums colStd = [0, 2] := rfl
  have hk : nonMissingNums colKurt = [0, 0, 0, 1] := rfl
  refine ⟨?_, ?_, by norm_num, ?_, ?_, by norm_num⟩
  · have hall : colStd.cells.all isMissing = false := rfl
    have hst : (numericalStats colStd).std_sq = stdSqOf (nonMissingNums colStd) := by
      unfold numericalStats
      rw [if_neg (by rw [hall]; exact Bool.false_ne_true)]
    rw [hst, hs]
    norm_num [stdSqOf, meanOf]
  · rw [hs]
    norm_num [popVariance, centralMoment, meanOf]
  · have hall : colKurt.cells.all isMissing = false := rfl
    have hku : (numericalStats colKurt).kurtosis =
        kurtosisOf (nonMissingNums colKurt) := by
      unfold numericalStats
      rw [if_neg (by rw [hall]; exact Bool.false_ne_true)]
    rw [hku, hk]
    norm_num [kurtosisOf, centralMoment, meanOf]
  · rw [hk]
    norm_num [specExcessKurtosis, centralMoment, meanOf]

theorem all_missing_nums_nil (cells : List Cell)
    (h : cells.all isMissing = true) :
    cells.filterMap
      (fun x => match x with | Cell.num q => some q | _ => none) = [] := by
  induction cells with
  | nil => rfl
  | cons x xs ih =>
    rcases List.all_eq_true.mp h x (List.mem_cons_self x xs) with hx
    cases x with
    | missing =>
      simpa using ih (List.all_eq_true.mpr
        (fun y hy => List.all_eq_true.mp h y (List.mem_cons_of_mem _ hy)))
    | num q => cases hx
    | str s => cases hx
    | boolv b => cases hx
    | time t => cases hx

theorem not_all_missing_of_nums (c : Column) (h : nonMissingNums c ≠ []) :
    c.cells.all isMissing = false := by
  by_contra hne
  exact h (all_missing_nums_nil c.cells
    (eq_true_of_ne_false (fun hf => hne (by rw [hf]))))

/-- Claim C4, amended: for a numeric column with at least two non-missing
values the reported std is the sample standard deviation (`ddof = 1`),
stated on squares: `std² = Σ (x - x̄)² / (n − 1)`; and with at least four
non-missing values and nonzero variance the reported kurtosis is the
bias-adjusted estimator `G2 = (n−1)/((n−2)(n−3)) · ((n+1)·g2 + 6)` applied
to the plain excess kurtosis `g2`, not `g2` itself. -/
theorem std_kurtosis_sample_estimators (c : Column)
    (h2 : 2 ≤ (nonMissingNums c).length) :
    (numericalStats c).std_sq = PyVal.num
      (((nonMissingNums c).map
          (fun x => (x - meanOf (nonMissingNums c)) ^ 2)).sum /
        (((nonMissingNums c).length : ℚ) - 1)) ∧
    (4 ≤ (nonMissingNums c).length →
      centralMoment 2 (nonMissingNums c) ≠ 0 →
      (numericalStats c).kurtosis = PyVal.num
        ((((nonMissingNums c).length : ℚ) - 1) /
            ((((nonMissingNums c).length : ℚ) - 2) *
              (((nonMissingNums c).length : ℚ) - 3)) *
          ((((nonMissingNums c).length : ℚ) + 1) *
              specExcessKurtosis (nonMissingNums c) + 6))) := by
  have hne : nonMissingNums c ≠ [] := by
    intro hnil
    rw [hnil] at h2
    exact absurd h2 (by norm_num)
  have hfalse : c.cells.all isMissing = false := not_all_missing_of_nums c hne
  have hproj : numericalStats c =
      { mean := if (nonMissingNums c).length = 0 then PyVal.nan
          else PyVal.num (meanOf (nonMissingNums c))
        median := if (nonMissingNums c).length = 0 then PyVal.nan
          else PyVal.num (medianOf (nonMissingNums c))
        std_sq := stdSqOf (nonMissingNums c)
        min := if (nonMissingNums c).length = 0 then PyVal.nan
          else PyVal.num (minOf (nonMissingNums c))
        max := if (nonMissingNums c).length = 0 then PyVal.nan
          else PyVal.num (maxOf (nonMissingNums c))
        q25 := if (nonMissingNums c).length = 0 then PyVal.nan
          else PyVal.num (quantileLin (1/4) (nonMissingNums c))
        q75 := if (nonMissingNums c).length = 0 then PyVal.nan
          else PyVal.num (quantileLin (3/4) (nonMissingNums c))
        skew_data := skewDataOf (nonMissingNums c)
        kurtosis := kurtosisOf (nonMissingNums c) } := by
    unfold numericalStats
    rw [if_neg (by rw [hfalse]; exact Bool.false_ne_true)]
  constructor
  · rw [hproj]
    unfold stdSqOf
    rw [if_neg (Nat.not_lt.mpr h2)]
  · intro h4 hm2
    rw [hproj]
    unfold kurtosisOf
    simp only
    rw [if_neg (Nat.not_lt.mpr h4), if_neg hm2]
    congr 1
    unfold specExcessKurtosis
    ring

/-- Witness for `std_kurtosis_sample_estimators` at the concrete column
`colKurt` (values 0, 0, 0, 1). -/
theorem std_kurtosis_sample_estimators_w :
    2 ≤ (nonMissingNums colKurt).length ∧
    4 ≤ (nonMissingNums colKurt).length ∧
    centralMoment 2 (nonMissingNums colKurt) ≠ 0 ∧
    (numericalStats colKurt).std_sq = PyVal.num
      (((nonMissingNums colKurt).map
          (fun x => (x - meanOf (nonMissingNums colKurt)) ^ 2)).sum /
        (((nonMissingNums colKurt).length : ℚ) - 1)) ∧
    (numericalStats colKurt).kurtosis = PyVal.num
      ((((nonMissingNums colKurt).length : ℚ) - 1) /
          ((((nonMissingNums colKurt).length : ℚ) - 2) *
            (((nonMissingNums colKurt).length : ℚ) - 3)) *
        ((((nonMissingNums colKurt).length : ℚ) + 1) *
            specExcessKurtosis (nonMissingNums colKurt) + 6)) := by
  have hk : nonMissingNums colKurt = [0, 0, 0, 1] := rfl
  have h2 : 2 ≤ (nonMissingNums colKurt).length := by rw [hk]; norm_num
  have h4 : 4 ≤ (nonMissingNums colKurt).length := by rw [hk]; norm_num
  have hm2 : centralMoment 2 (nonMissingNums colKurt) ≠ 0 := by
    rw [hk]
    norm_num [centralMoment, meanOf]
  exact ⟨h2, h4, hm2, (std_kurtosis_sample_estimators colKurt h2).1,
    (std_kurtosis_sample_estimators colKurt h2).2 h4 hm2⟩

/-- A one-row table whose single column is categorical (dtype `object`)
but entirely missing. -/
def allMissingCatTable : Table :=
  ⟨1, [⟨"c", Dtype.object, [Cell.missing]⟩]⟩

/-- Counterexample to claim C5: on a table whose only column is
categorical but entirely missing, the categorical slot's precondition
(at least one categorical column) is met, and the generator emits the
slot with an empty top-10 table — an empty bar chart, contradicting
"never emitting an empty or degenerate chart specification". -/
theorem categorical_chart_emitted_empty :
    1 ≤ (categoricalColumns allMissingCatTable).length ∧
    (create_visualizations allMissingCatTable).categorical = some ("c", []) := by
  constructor
  · decide
  · rfl

/-- Claim C5, amended: each slot is present exactly when its column-count
precondition is met — `correlation` and `scatter_matrix` iff at least 2
numeric columns, `categorical` iff at least 1 categorical column,
`summary_stats`, `distributions` and `boxplots` iff at least 1 numeric
column; however, a slot whose qualifying column has no non-missing
values may still be emitted with empty data (see the counterexample). -/
theorem visualization_slot_conditions (t : Table) :
    ((create_visualizations t).summary_stats ≠ none ↔
      1 ≤ (numericalColumns t).length) ∧
    ((create_visualizations t).distributions ≠ none ↔
      1 ≤ (numericalColumns t).length) ∧
    ((create_visualizations t).correlation ≠ none ↔
      2 ≤ (numericalColumns t).length) ∧
    ((create_visualizations t).boxplots ≠ none ↔
      1 ≤ (numericalColumns t).length) ∧
    ((create_visualizations t).categorical ≠ none ↔
      1 ≤ (categoricalColumns t).length) ∧
    ((create_visualizations t).scatter_matrix ≠ none ↔
      2 ≤ (numericalColumns t).length) := by
  unfold create_visualizations
  refine ⟨?_, ?_, ?_, ?_, ?_, ?_⟩
  · by_cases h : 0 < (numericalColumns t).length
    · simp [h]
      exact h
    · simp [h]
      exact List.eq_nil_of_length_eq_zero (by omega)
  · by_cases h : 0 < (numericalColumns t).length
    · simp [h]
      exact h
    · simp [h]
      exact List.eq_nil_of_length_eq_zero (by omega)
  · by_cases h : 1 < (numericalColumns t).length
    · simp [h]
      omega
    · simp [h]
      omega
  · by_cases h : 0 < (numericalColumns t).length
    · simp [h]
      exact h
    · simp [h]
      exact List.eq_nil_of_length_eq_zero (by omega)
  · cases hcc : categoricalColumns t with
    | nil => simp [hcc]
    | cons c cs => simp [hcc, Nat.succ_le_iff]
  · by_cases h : 2 ≤ (numericalColumns t).length
    · simp [h]
    · simp [h]

theorem mem_insertDesc (x z : String × ℕ) (l : List (String × ℕ)) :
    z ∈ insertDesc x l ↔ z = x ∨ z ∈ l := by
  induction l with
  | nil => simp [insertDesc]
  | cons y ys ih =>
    unfold insertDesc
    by_cases h : y.2 < x.2
    · simp [h]
    · simp only [if_neg h, List.mem_cons, ih]
      tauto

theorem pairwise_insertDesc (x : String × ℕ) (l : List (String × ℕ))
    (h : List.Pairwise (fun a b => b.2 ≤ a.2) l) :
    List.Pairwise (fun a b => b.2 ≤ a.2) (insertDesc x l) := by
  induction l with
  | nil => simp [insertDesc]
  | cons y ys ih =>
    obtain ⟨hrel, htail⟩ := List.pairwise_cons.mp h
    unfold insertDesc
    by_cases hlt : y.2 < x.2
    · rw [if_pos hlt]
      refine List.Pairwise.cons ?_ h
      intro z hz
      rcases List.mem_cons.mp hz with hz | hz
      · subst hz; exact Nat.le_of_lt hlt
      · exact Nat.le_trans (hrel z hz) (Nat.le_of_lt hlt)
    · rw [if_neg hlt]
      refine List.Pairwise.cons ?_ (ih htail)
      intro z hz
      rcases (mem_insertDesc x z ys).mp hz with hz | hz
      · subst hz; exact Nat.le_of_not_lt hlt
      · exact hrel z hz

theorem pairwise_sortDesc_aux (l acc : List (String × ℕ))
    (hacc : List.Pairwise (fun a b => b.2 ≤ a.2) acc) :
    List.Pairwise (fun a b => b.2 ≤ a.2)
      (List.foldl (fun a x => insertDesc x a) acc l) := by
  induction l generalizing acc with
  | nil => exact hacc
  | cons x xs ih =>
    exact ih (insertDesc x acc) (pairwise_insertDesc x acc hacc)

theorem pairwise_sortDesc (l : List (String × ℕ)) :
    List.Pairwise (fun a b => b.2 ≤ a.2) (sortDesc l) :=
  pairwise_sortDesc_aux l [] List.Pairwise.nil

theorem filter_insertDesc (x : String × ℕ) (l : List (String × ℕ)) (k : ℕ)
    (h : List.Pairwise (fun a b => b.2 ≤ a.2) l) :
    (insertDesc x l).filter (fun p => p.2 == k) =
      if x.2 = k then l.filter (fun p => p.2 == k) ++ [x]
      else l.filter (fun p => p.2 == k) := by
  induction l with
  | nil =>
    by_cases hx : x.2 = k
    · simp [insertDesc, List.filter_cons, hx]
    · simp [insertDesc, List.filter_cons, hx]
  | cons y ys ih =>
    obtain ⟨hrel, htail⟩ := List.pairwise_cons.mp h
    unfold insertDesc
    by_cases hlt : y.2 < x.2
    · rw [if_pos hlt]
      by_cases hx : x.2 = k
      · have hnil : (y :: ys).filter (fun p => p.2 == k) = [] := by
          rw [List.filter_eq_nil_iff]
          intro z hz
          have hzle : z.2 ≤ y.2 := by
            rcases List.mem_cons.mp hz with hz | hz
            · subst hz; exact Nat.le_refl _
            · exact hrel z hz
          simp only [beq_iff_eq]
          omega
        rw [if_pos hx, hnil]
        have hxk : ((fun p => p.2 == k) x) = true := by simpa using hx
        simp [List.filter_cons, hxk, hnil]
      · rw [if_neg hx]
        have hxk : ((fun p => p.2 == k) x) = false := by simpa using hx
        simp [List.filter_cons, hxk]
    · rw [if_neg hlt]
      rw [List.filter_cons, List.filter_cons, ih htail]
      by_cases hx : x.2 = k <;> by_cases hy : (y.2 == k) = true <;>
        simp [hx, hy]

theorem filter_sortDesc_aux (l acc : List (String × ℕ)) (k : ℕ)
    (hacc : List.Pairwise (fun a b => b.2 ≤ a.2) acc) :
    (List.foldl (fun a x => insertDesc x a) acc l).filter (fun p => p.2 == k) =
      acc.filter (fun p => p.2 == k) ++ l.filter (fun p => p.2 == k) := by
  induction l generalizing acc with
  | nil => simp
  | cons x xs ih =>
    rw [List.foldl_cons, ih (insertDesc x acc) (pairwise_insertDesc x acc hacc),
      filter_insertDesc x acc k hacc, List.filter_cons]
    by_cases hx : x.2 = k
    · have hxk : ((fun p => p.2 == k) x) = true := by simpa using hx
      rw [if_pos hx]
      simp [hxk]
    · have hxk : ((fun p => p.2 == k) x) = false := by simpa using hx
      rw [if_neg hx]
      simp [hxk]

theorem filter_sortDesc (l : List (String × ℕ)) (k : ℕ) :
    (sortDesc l).filter (fun p => p.2 == k) = l.filter (fun p => p.2 == k) := by
  have := filter_sortDesc_aux l [] k List.Pairwise.nil
  simpa [sortDesc] using this

theorem exists_take_of_filter_take {α : Type} (l : List α) (j : ℕ)
    (p : α → Bool) : ∃ m, (l.take j).filter p = (l.filter p).take m := by
  induction l generalizing j with
  | nil => exact ⟨0, by simp⟩
  | cons x xs ih =>
    cases j with
    | zero => exact ⟨0, by simp⟩
    | succ n =>
      obtain ⟨m, hm⟩ := ih n
      by_cases hp : p x
      · exact ⟨m + 1, by simp [List.filter_cons, hp, hm]⟩
      · exact ⟨m, by simp [List.filter_cons, hp, hm]⟩

/-- Claim C6: the reported categorical top-10 table is
`value_counts().head(10)`: it has at most 10 entries, it is ordered by
descending occurrence count, and ties between equal counts stay in the
values' original encounter order — the unsorted counts list enumerates
values in first-encounter order, the sort is stable (entries of any fixed
count keep their relative order), and `head(10)` takes an order-preserving
initial segment. -/
theorem categorical_top10_table (c : Column) :
    (categoricalStats c).value_counts_top.length ≤ 10 ∧
    (categoricalStats c).value_counts_top = (valueCounts c).take 10 ∧
    List.Pairwise (fun a b => b.2 ≤ a.2)
      ((categoricalStats c).value_counts_top) ∧
    (rawCounts c).map Prod.fst = distinctInOrder (strVals c) ∧
    (∀ k, (valueCounts c).filter (fun p => p.2 == k) =
      (rawCounts c).filter (fun p => p.2 == k)) ∧
    (∀ k, ∃ m, ((categoricalStats c).value_counts_top).filter
        (fun p => p.2 == k) =
      ((rawCounts c).filter (fun p => p.2 == k)).take m) := by
  have htop : (categoricalStats c).value_counts_top = (valueCounts c).take 10 :=
    rfl
  refine ⟨?_, htop, ?_, ?_, ?_, ?_⟩
  · rw [htop]
    exact List.length_take_le 10 _
  · rw [htop]
    exact List.Pairwise.sublist (List.take_sublist 10 _)
      (pairwise_sortDesc (rawCounts c))
  · simp [rawCounts, List.map_map, Function.comp_def]
  · intro k
    exact filter_sortDesc (rawCounts c) k
  · intro k
    rw [htop]
    obtain ⟨m, hm⟩ := exists_take_of_filter_take (valueCounts c) 10
      (fun p => p.2 == k)
    exact ⟨m, by
      rw [hm]
      exact congrArg (List.take m) (filter_sortDesc (rawCounts c) k)⟩

/-- Claim C7: with at least 2 numeric columns, the scatter-matrix slot
covers exactly the first `min(3, n)` numeric columns in original column
order, and its rows are exactly the rows with no missing value in those
columns; the caps — 5 for `summary_stats`, 3 for `distributions`, 4 for
`boxplots`, 3 for `scatter_matrix` — are the fixed constants of the
source, each applied to the numeric-column list in original order. -/
theorem scatter_matrix_and_caps (t : Table)
    (h : 2 ≤ (numericalColumns t).length) :
    (create_visualizations t).scatter_matrix =
      some (((numericalColumns t).take 3).map (fun c => c.name),
        (keptRowIdx t.nrows ((numericalColumns t).take 3)).map
          (scatterRow ((numericalColumns t).take 3))) ∧
    (((numericalColumns t).take 3).map (fun c => c.name)).length =
      min 3 (numericalColumns t).length ∧
    (∀ i, i ∈ keptRowIdx t.nrows ((numericalColumns t).take 3) ↔
      i < t.nrows ∧ ∀ c ∈ (numericalColumns t).take 3,
        isMissing (c.cells.getD i Cell.missing) = false) ∧
    (create_visualizations t).summary_stats =
      some (((numericalColumns t).take 5).map
        (fun c => (c.name, numericalStats c))) ∧
    (create_visualizations t).distributions =
      some (((numericalColumns t).take 3).map
        (fun c => (c.name, nonMissingNums c))) ∧
    (create_visualizations t).boxplots =
      some (((numericalColumns t).take 4).map
        (fun c => (c.name, nonMissingNums c))) := by
  have h1 : 0 < (numericalColumns t).length := by omega
  refine ⟨?_, ?_, ?_, ?_, ?_, ?_⟩
  · simp [create_visualizations, h]
  · simp [List.length_take]
  · intro i
    simp only [keptRowIdx, List.mem_filter, List.mem_range]
    constructor
    · rintro ⟨hi, hall⟩
      refine ⟨hi, ?_⟩
      intro c hc
      have := List.all_eq_true.mp hall (c.cells.getD i Cell.missing)
        (by exact List.mem_map.mpr ⟨c, hc, rfl⟩)
      simpa using this
    · rintro ⟨hi, hall⟩
      refine ⟨hi, ?_⟩
      rw [List.all_eq_true]
      intro x hx
      obtain ⟨c, hc, hcx⟩ := List.mem_map.mp hx
      subst hcx
      simpa using hall c hc
  · simp [create_visualizations, h1]
  · simp [create_visualizations, h1]
  · simp [create_visualizations, h1]

/-- A three-row table with two float columns, the first of which has a
missing value in its middle row. -/
def scatterTable : Table :=
  ⟨3, [⟨"a", Dtype.float64, [Cell.num 1, Cell.missing, Cell.num 3]⟩,
       ⟨"b", Dtype.float64, [Cell.num 4, Cell.num 5, Cell.num 6]⟩]⟩

/-- Witness for `scatter_matrix_and_caps` at `scatterTable`. -/
theorem scatter_matrix_and_caps_w :
    2 ≤ (numericalColumns scatterTable).length ∧
    (create_visualizations scatterTable).scatter_matrix =
      some (((numericalColumns scatterTable).take 3).map (fun c => c.name),
        (keptRowIdx scatterTable.nrows ((numericalColumns scatterTable).take 3)).map
          (scatterRow ((numericalColumns scatterTable).take 3))) := by
  have h : 2 ≤ (numericalColumns scatterTable).length := by decide
  exact ⟨h, (scatter_matrix_and_caps scatterTable h).1⟩

/-- The empty table: no rows, no columns. -/
def emptyTable : Table := ⟨0, []⟩

/-- Claim C8: `get_data_characteristics` is a total (hence never-raising)
pure function of the table: it reports the exact row and column counts,
produces one name, one missing-count entry and one missing-percentage
entry per column (missing values surface only as `None`/NaN entries, never
as errors), and on the empty table yields zero-length column lists and no
per-column stats at all. -/
theorem extractor_total_and_empty (t : Table) :
    (get_data_characteristics t).basic_info.rows = t.nrows ∧
    (get_data_characteristics t).basic_info.columns = t.cols.length ∧
    (get_data_characteristics t).basic_info.column_names =
      t.cols.map (fun c => c.name) ∧
    (get_data_characteristics t).missing_data.missing_counts.length =
      t.cols.length ∧
    (get_data_characteristics t).missing_data.missing_percentages.length =
      t.cols.length ∧
    (∀ c ∈ t.cols,
      (c.name, missingCount c) ∈
        (get_data_characteristics t).missing_data.missing_counts ∧
      (c.name, missingPercentage t.nrows c) ∈
        (get_data_characteristics t).missing_data.missing_percentages) ∧
    get_data_characteristics emptyTable =
      ⟨⟨0, 0, [], []⟩, ⟨[], []⟩, [], []⟩ := by
  refine ⟨rfl, rfl, rfl, ?_, ?_, ?_, rfl⟩
  · simp [get_data_characteristics]
  · simp [get_data_characteristics]
  · intro c hc
    exact ⟨List.mem_map.mpr ⟨c, hc, rfl⟩, List.mem_map.mpr ⟨c, hc, rfl⟩⟩

/-- Witness for `extractor_total_and_empty`: its per-column part applied
to the concrete table `halfMissingTable` and its column. -/
theorem extractor_total_and_empty_w :
    (⟨"a", Dtype.float64, [Cell.num 1, Cell.missing]⟩ : Column) ∈
      halfMissingTable.cols ∧
    (("a", missingCount ⟨"a", Dtype.float64, [Cell.num 1, Cell.missing]⟩) ∈
      (get_data_characteristics halfMissingTable).missing_data.missing_counts) := by
  have hc : (⟨"a", Dtype.float64, [Cell.num 1, Cell.missing]⟩ : Column) ∈
      halfMissingTable.cols := List.mem_cons_self _ _
  exact ⟨hc,
    ((extractor_total_and_empty halfMissingTable).2.2.2.2.2.1 _ hc).1⟩

/-- Claim C9: a column whose dtype is selected neither by the numeric
filter nor by the object/category filter (e.g. a boolean or datetime
column) appears in `column_names` and in both missing-data maps, but in
neither the numeric-stats map nor the categorical-stats map — so the two
stat maps do not jointly cover all columns.  (Distinct column names are
assumed so that map keys identify columns.) -/
theorem unclassified_column_reported (t : Table) (c : Column)
    (hc : c ∈ t.cols)
    (hnodup : (t.cols.map (fun c => c.name)).Nodup)
    (hnum : isNumericDtype c.dtype = false)
    (hcat : isCategoricalDtype c.dtype = false) :
    c.name ∈ (get_data_characteristics t).basic_info.column_names ∧
    (c.name, missingCount c) ∈
      (get_data_characteristics t).missing_data.missing_counts ∧
    (c.name, missingPercentage t.nrows c) ∈
      (get_data_characteristics t).missing_data.missing_percentages ∧
    c.name ∉ ((get_data_characteristics t).numerical_stats).map Prod.fst ∧
    c.name ∉ ((get_data_characteristics t).categorical_stats).map Prod.fst := by
  refine ⟨List.mem_map.mpr ⟨c, hc, rfl⟩, List.mem_map.mpr ⟨c, hc, rfl⟩,
    List.mem_map.mpr ⟨c, hc, rfl⟩, ?_, ?_⟩
  · intro hmem
    simp only [get_data_characteristics, List.map_map, List.mem_map,
      Function.comp] at hmem
    obtain ⟨c', hc', hname⟩ := hmem
    have hmemcols : c' ∈ t.cols := (List.mem_filter.mp hc').1
    have : c' = c := List.inj_on_of_nodup_map hnodup hmemcols hc hname
    subst this
    rw [(List.mem_filter.mp hc').2] at hnum
    cases hnum
  · intro hmem
    simp only [get_data_characteristics, List.map_map, List.mem_map,
      Function.comp] at hmem
    obtain ⟨c', hc', hname⟩ := hmem
    have hmemcols : c' ∈ t.cols := (List.mem_filter.mp hc').1
    have : c' = c := List.inj_on_of_nodup_map hnodup hmemcols hc hname
    subst this
    rw [(List.mem_filter.mp hc').2] at hcat
    cases hcat

/-- A table with a boolean column and an integer column. -/
def boolTable : Table :=
  ⟨1, [⟨"b", Dtype.boolean, [Cell.boolv true]⟩,
       ⟨"n", Dtype.int64, [Cell.num 3]⟩]⟩

/-- Witness for `unclassified_column_reported` at the boolean column of
`boolTable`. -/
theorem unclassified_column_reported_w :
    (⟨"b", Dtype.boolean, [Cell.boolv true]⟩ : Column) ∈ boolTable.cols ∧
    (boolTable.cols.map (fun c => c.name)).Nodup ∧
    "b" ∈ (get_data_characteristics boolTable).basic_info.column_names ∧
    "b" ∉ ((get_data_characteristics boolTable).numerical_stats).map Prod.fst ∧
    "b" ∉ ((get_data_characteristics boolTable).categorical_stats).map Prod.fst := by
  have hc : (⟨"b", Dtype.boolean, [Cell.boolv true]⟩ : Column) ∈
      boolTable.cols := List.mem_cons_self _ _
  have hnodup : (boolTable.cols.map (fun c => c.name)).Nodup := by decide
  have h := unclassified_column_reported boolTable _ hc hnodup rfl rfl
  exact ⟨hc, hnodup, h.1, h.2.2.2.1, h.2.2.2.2⟩
